import Mathlib

/-!
Verification of the `expo-font` registry (`src/Font.js`).

The module keeps two process-wide maps:

* `loaded` — a plain JS object used as a set of loaded font names
  (`loaded[name] = true` after a successful native registration);
* `loadPromises` — a plain JS object mapping a font name to the single
  shared in-flight load promise for that name.

We embed the module as an explicit state machine.  The synchronous prefix
of `loadAsync` (everything up to the first `await`) is the function
`loadAsyncStart`; the async body created for a new load is an `Op` that
advances through its two suspension points (`asset.downloadAsync()`,
`ExpoFontLoader.loadAsync(...)`) via `stepOp`, driven by an environment
oracle `Env` that fixes the outcome of each external call.

JS plain objects inherit from `Object.prototype`, so a bare property read
`loaded[name]` is truthy not only for own properties but also for names
such as `"toString"`; `hasOwnProperty` (used by `isLoaded`/`isLoading`)
sees own properties only.  The model keeps this distinction
(`objectProtoTruthy`, `jsTruthy` vs. plain list membership).
-/

/-- Characters `pat` occur as a prefix of `s`. -/
def isPrefixList : List Char → List Char → Bool
  | [], _ => true
  | _ :: _, [] => false
  | a :: as, b :: bs => a == b && isPrefixList as bs

/-- Characters `pat` occur contiguously somewhere in `s`. -/
def isSubList (pat : List Char) : List Char → Bool
  | [] => isPrefixList pat []
  | b :: bs => isPrefixList pat (b :: bs) || isSubList pat bs

/-- JS `s.includes(pat)`: `pat` is a contiguous substring of `s`. -/
def strIncludes (s pat : String) : Bool :=
  isSubList pat.toList s.toList

/-- Property names a bare read on an empty plain object `{}` resolves (to a
truthy value) through `Object.prototype`. -/
def objectProtoProps : List String :=
  ["constructor", "hasOwnProperty", "isPrototypeOf", "propertyIsEnumerable",
   "toLocaleString", "toString", "valueOf", "__defineGetter__",
   "__defineSetter__", "__lookupGetter__", "__lookupSetter__", "__proto__"]

/-- `name` hits a truthy inherited `Object.prototype` property. -/
def objectProtoTruthy (name : String) : Bool :=
  objectProtoProps.contains name

/-- Truthiness of the bare JS read `obj[name]` on a plain object whose own
properties are `own` (all own values stored by this module are truthy:
`true` in `loaded`, promises in `loadPromises`). -/
def jsTruthy (own : List String) (name : String) : Bool :=
  own.contains name || objectProtoTruthy name

/-- Behaviour of an asset handle: whether `downloadAsync()` rejects, the
`downloaded` flag observed afterwards, and `localUri`. -/
structure AssetBeh where
  downloadRejects : Option String
  downloaded : Bool
  localUri : String

/-- The environment collaborators: `expo-constants` (`systemFonts`,
`sessionId`), the dev flag, `Asset.fromModule`, and the native
`ExpoFontLoader.loadAsync` outcome, keyed by its two arguments. -/
structure Env where
  systemFonts : List String
  sessionId : String
  dev : Bool
  fromModule : Nat → AssetBeh
  native : String → String → Except String Unit

/-- A `FontSource`: remote URI string, numeric module reference, or an
already-resolved asset handle. -/
inductive Source where
  | uri (s : String)
  | module (m : Nat)
  | asset (a : AssetBeh)

/-- Suspension point an in-flight load body is parked at. -/
inductive Phase where
  | downloading
  | registering
deriving DecidableEq

/-- An in-flight load body (`_loadSingleFontAsync` for one name). -/
structure Op where
  name : String
  asset : AssetBeh
  phase : Phase

/-- The registry state: `loaded` and `promises` are the own-property sets of
the two JS objects; `ops` holds the suspended load bodies keyed by promise
id; `results` records settled promises; `downloadCalls` and `nativeCalls`
log every `downloadAsync` / `ExpoFontLoader.loadAsync` invocation. -/
structure St where
  loaded : List String
  promises : List (String × Nat)
  ops : List (Nat × Op)
  results : List (Nat × Except String Unit)
  nextId : Nat
  downloadCalls : List String
  nativeCalls : List (String × String)

/-- The empty initial state (fresh module load). -/
def St.init : St :=
  { loaded := [], promises := [], ops := [], results := [], nextId := 0,
    downloadCalls := [], nativeCalls := [] }

/-- What the synchronous prefix of a `loadAsync` call hands its caller:
either a synchronously settled result or the shared promise it awaits. -/
inductive CallerOutcome where
  | done (r : Except String Unit)
  | awaiting (pid : Nat)

/-- `_getNativeFontName(name)`: the session-namespaced native name. -/
def getNativeFontName (env : Env) (name : String) : String :=
  env.sessionId ++ "-" ++ name

/-- `isLoaded(name)`: `loaded.hasOwnProperty(name)` — own properties only. -/
def isLoaded (st : St) (name : String) : Bool :=
  st.loaded.contains name

/-- `isLoading(name)`: `loadPromises.hasOwnProperty(name)`. -/
def isLoading (st : St) (name : String) : Bool :=
  (st.promises.lookup name).isSome

/-- `processFontFamily(name)`.  Pure in the registry state: it only reads
`loaded` (through `isLoaded`) and never mutates either map; the
development-build diagnostics are `console.error` logs with no effect on
the result, so `env.dev` does not appear in the value. -/
def processFontFamily (env : Env) (st : St) (name : Option String) : Option String :=
  match name with
  | none => none
  | some n =>
    if n == "" || env.systemFonts.contains n || n == "System" then
      some n
    else if strIncludes n "FuturaBT" then
      some n
    else if strIncludes n env.sessionId then
      some n
    else if !(isLoaded st n) then
      some "System"
    else
      some ("ExpoFont-" ++ getNativeFontName env n)

/-- Message of `invariant(uriOrModuleOrAsset, ...)` when the source is falsy. -/
def noSourceMsg (name : String) : String :=
  "No source from which to load font \"" ++ name ++ "\""

/-- Message thrown by `_getAssetForSource` on a string source. -/
def remoteSourceMsg : String :=
  "Loading fonts from remote URIs is temporarily not supported. Please download the font file and load it using require. See: https://docs.expo.io/versions/latest/guides/using-custom-fonts.html#downloading-the-font"

/-- Message thrown when the asset reports `downloaded = false` after download. -/
def downloadFailedMsg (name : String) : String :=
  "Failed to download asset for font \"" ++ name ++ "\""

/-- JS falsiness of the `uriOrModuleOrAsset` argument, as tested by
`invariant`: `undefined`, the empty string and the number `0` are falsy. -/
def sourceFalsy : Option Source → Bool
  | none => true
  | some (.uri s) => s == ""
  | some (.module m) => m == 0
  | some (.asset _) => false

/-- `_getAssetForSource`: a string source throws (remote URIs unsupported),
a numeric source goes through `Asset.fromModule`, an asset passes through. -/
def getAssetForSource (env : Env) : Source → Except String AssetBeh
  | .uri _ => .error remoteSourceMsg
  | .module m => .ok (env.fromModule m)
  | .asset a => .ok a

/-- The synchronous prefix of the single-name `loadAsync(name, source)`:
the `loaded[name]` truthy check, the `loadPromises[name]` dedup check, the
`invariant` on the source, source normalization, and — with no suspension
point in between — creation of the shared promise, whose body immediately
issues `asset.downloadAsync()` before first suspending. -/
def loadAsyncStart (env : Env) (st : St) (name : String) (source : Option Source) :
    St × CallerOutcome :=
  if jsTruthy st.loaded name then
    (st, .done (.ok ()))
  else
    match st.promises.lookup name with
    | some pid => (st, .awaiting pid)
    | none =>
      -- `loadPromises[name]` is a bare read too; its inherited-property case
      -- is unreachable because the `loaded[name]` check above already
      -- returned for every `Object.prototype` name.
      if sourceFalsy source then
        (st, .done (.error (noSourceMsg name)))
      else
      match source with
      | none =>
        (st, .done (.error (noSourceMsg name)))
      | some src =>
        match getAssetForSource env src with
        | .error e => (st, .done (.error e))
        | .ok asset =>
          ({ st with
              promises := (name, st.nextId) :: st.promises,
              ops := (st.nextId, ⟨name, asset, Phase.downloading⟩) :: st.ops,
              nextId := st.nextId + 1,
              downloadCalls := name :: st.downloadCalls },
           .awaiting st.nextId)

/-- Settlement of an in-flight body: on success `loaded[name] = true`, then
in either case the `finally` block `delete loadPromises[name]` runs and the
shared promise settles with `r`. -/
def finishOp (st : St) (pid : Nat) (name : String) (r : Except String Unit) : St :=
  { st with
      loaded := match r with | .ok _ => name :: st.loaded | .error _ => st.loaded,
      promises := st.promises.filter (fun p => p.1 != name),
      ops := st.ops.filter (fun p => p.1 != pid),
      results := (pid, r) :: st.results }

/-- Resolve the pending external call of the body `pid` is parked at.
At `downloading`: `downloadAsync()` settles; a rejection propagates, an
asset left with `downloaded = false` throws the named error, otherwise the
body synchronously issues `ExpoFontLoader.loadAsync(nativeName, localUri)`
and parks at `registering`.  At `registering`: the native call settles
with the environment's outcome. -/
def stepOp (env : Env) (st : St) (pid : Nat) : St :=
  match st.ops.lookup pid with
  | none => st
  | some op =>
    match op.phase with
    | .downloading =>
      match op.asset.downloadRejects with
      | some e => finishOp st pid op.name (.error e)
      | none =>
        if op.asset.downloaded then
          { st with
              ops := st.ops.map
                (fun p => if p.1 == pid then (pid, { op with phase := Phase.registering }) else p),
              nativeCalls := (getNativeFontName env op.name, op.asset.localUri) :: st.nativeCalls }
        else
          finishOp st pid op.name (.error (downloadFailedMsg op.name))
    | .registering =>
      finishOp st pid op.name (env.native (getNativeFontName env op.name) op.asset.localUri)

/-- Drive the body `pid` across both suspension points; any in-flight body
settles within two steps (a step on a settled promise is a no-op). -/
def runOpToEnd (env : Env) (st : St) (pid : Nat) : St :=
  stepOp env (stepOp env st pid) pid

/-- The object form `loadAsync(fontMap)`: `names.map(name => loadAsync(name,
fontMap[name]))` runs each call's synchronous prefix in key order before
any download settles, collecting the outcome `Promise.all` will await. -/
def loadAsyncMapStart (env : Env) (st : St) :
    List (String × Source) → St × List CallerOutcome
  | [] => (st, [])
  | (n, src) :: rest =>
    let p := loadAsyncStart env st n (some src)
    let q := loadAsyncMapStart env p.1 rest
    (q.1, p.2 :: q.2)

/-- The result a caller holding `o` observes in state `st`, if settled. -/
def callerResult (st : St) : CallerOutcome → Option (Except String Unit)
  | .done r => some r
  | .awaiting pid => st.results.lookup pid

/-- All fan-out members, if every one has settled (`Promise.all` resolves
only when all complete). -/
def gatherResults (st : St) (outs : List CallerOutcome) :
    Option (List (Except String Unit)) :=
  outs.mapM (callerResult st)

/-- `Promise.all` settlement: the first rejection propagates, otherwise ok. -/
def firstErr : List (Except String Unit) → Except String Unit
  | [] => .ok ()
  | .ok _ :: rest => firstErr rest
  | .error e :: _ => .error e

/-- One interleaved event: a caller invoking the synchronous prefix of
`loadAsync`, or the scheduler resolving the pending external call of an
in-flight body. -/
inductive RegEvent where
  | call (name : String) (src : Option Source)
  | step (pid : Nat)

/-- Apply one event to the registry state. -/
def applyEvent (env : Env) (st : St) : RegEvent → St
  | .call n src => (loadAsyncStart env st n src).1
  | .step pid => stepOp env st pid

/-- Run a sequence of interleaved events. -/
def runEvents (env : Env) (st : St) : List RegEvent → St
  | [] => st
  | a :: rest => runEvents env (applyEvent env st a) rest

/-! ### Concrete fixtures used by the scenario theorems and witnesses -/

/-- An asset whose download succeeds and leaves a local file. -/
def goodAsset : AssetBeh :=
  { downloadRejects := none, downloaded := true, localUri := "file:///fonts/good.ttf" }

/-- An asset whose download resolves but leaves `downloaded = false`. -/
def badAsset : AssetBeh :=
  { downloadRejects := none, downloaded := false, localUri := "" }

/-- An environment with session id `"abc"`, one system font, and a native
loader that accepts every registration. -/
def envAbc : Env :=
  { systemFonts := ["Roboto"], sessionId := "abc", dev := true,
    fromModule := fun _ => goodAsset, native := fun _ _ => .ok () }

/-- State after the synchronous prefix of `loadAsync("Foo", goodAsset)`. -/
def c4state1 : St :=
  (loadAsyncStart envAbc St.init "Foo" (some (Source.asset goodAsset))).1

/-- State after the load of `"Foo"` has run to completion. -/
def c4state2 : St :=
  runOpToEnd envAbc c4state1 0

/-- A state with one in-flight body for `"Bar"` whose asset fails to
download. -/
def st9 : St :=
  { St.init with ops := [(0, ⟨"Bar", badAsset, Phase.downloading⟩)] }

/-- The fan-out map `\x7b A: goodAsset, B: badAsset \x7d` of the C10 scenario. -/
def c10entries : List (String × Source) :=
  [("A", Source.asset goodAsset), ("B", Source.asset badAsset)]

/-- State and caller outcomes right after `loadAsync(fontMap)` fanned out. -/
def c10start : St × List CallerOutcome :=
  loadAsyncMapStart envAbc St.init c10entries

/-- C10 scenario after only `A`'s load settled (`B` still pending). -/
def c10afterA : St :=
  runOpToEnd envAbc c10start.1 0

/-- C10 scenario after both loads settled. -/
def c10final : St :=
  runOpToEnd envAbc c10afterA 1

/-! ### Helper lemmas about association-list operations -/

/-- Deleting a key from an association list makes lookup of that key fail. -/
theorem lookup_filter_ne_key {α β : Type} [BEq α] [LawfulBEq α]
    (l : List (α × β)) (k : α) :
    (l.filter (fun p => p.1 != k)).lookup k = none := by
  induction l with
  | nil => rfl
  | cons p rest ih =>
    obtain ⟨pk, pv⟩ := p
    by_cases hp : pk = k
    · subst hp
      simpa [List.filter_cons] using ih
    · have h1 : (pk != k) = true := by
        simp [bne, hp]
      have h2 : (k == pk) = false := beq_eq_false_iff_ne.mpr fun hh => hp hh.symm
      simp [List.filter_cons, h1, List.lookup_cons, h2, ih]

/-- Updating the value at a present key is seen by lookup. -/
theorem lookup_map_update {α β : Type} [BEq α] [LawfulBEq α]
    (l : List (α × β)) (k : α) (v v' : β) (h : l.lookup k = some v) :
    (l.map (fun p => if p.1 == k then (k, v') else p)).lookup k = some v' := by
  induction l with
  | nil => simp at h
  | cons p rest ih =>
    obtain ⟨pk, pv⟩ := p
    by_cases hp : pk = k
    · subst hp
      simp [List.map_cons, List.lookup_cons]
    · have h1 : (pk == k) = false := beq_eq_false_iff_ne.mpr hp
      have h2 : (k == pk) = false := beq_eq_false_iff_ne.mpr fun hh => hp hh.symm
      rw [List.lookup_cons, h2] at h
      simp only [List.map_cons, h1, Bool.false_eq_true, if_false, List.lookup_cons, h2]
      exact ih h

/-- A step on an already-settled promise is a no-op. -/
theorem stepOp_finishOp (env : Env) (st : St) (pid : Nat) (name : String)
    (r : Except String Unit) :
    stepOp env (finishOp st pid name r) pid = finishOp st pid name r := by
  unfold stepOp
  rw [show (finishOp st pid name r).ops.lookup pid = none from
    lookup_filter_ne_key _ _]

/-- The state right after a successful download: the body has issued the
native-registration call and is parked at `registering`. -/
def midState (env : Env) (st : St) (pid : Nat) (n : String) (a : AssetBeh) : St :=
  { st with
      ops := st.ops.map
        (fun p => if p.1 == pid then (pid, ⟨n, a, Phase.registering⟩) else p),
      nativeCalls := (getNativeFontName env n, a.localUri) :: st.nativeCalls }

/-- Any in-flight body settles within two scheduler steps: the run equals a
single `finishOp` applied to a state that differs from `st` at most in
`ops` and at most one extra native-registration call. -/
theorem runOpToEnd_settles (env : Env) (st : St) (pid : Nat) (op : Op)
    (hop : st.ops.lookup pid = some op) :
    ∃ r st1, runOpToEnd env st pid = finishOp st1 pid op.name r ∧
      st1.loaded = st.loaded ∧ st1.promises = st.promises ∧
      st1.results = st.results ∧ st1.nextId = st.nextId ∧
      st1.downloadCalls = st.downloadCalls ∧
      st1.nativeCalls.length ≤ st.nativeCalls.length + 1 := by
  obtain ⟨n, a, ph⟩ := op
  cases ph with
  | registering =>
    refine ⟨env.native (getNativeFontName env n) a.localUri, st, ?_,
      rfl, rfl, rfl, rfl, rfl, Nat.le_succ _⟩
    have h1 : stepOp env st pid =
        finishOp st pid n (env.native (getNativeFontName env n) a.localUri) := by
      simp [stepOp, hop]
    rw [runOpToEnd, h1, stepOp_finishOp]
  | downloading =>
    cases hd : a.downloadRejects with
    | some e =>
      refine ⟨.error e, st, ?_, rfl, rfl, rfl, rfl, rfl, Nat.le_succ _⟩
      have h1 : stepOp env st pid = finishOp st pid n (.error e) := by
        simp [stepOp, hop, hd]
      rw [runOpToEnd, h1, stepOp_finishOp]
    | none =>
      cases hdl : a.downloaded with
      | false =>
        refine ⟨.error (downloadFailedMsg n), st, ?_, rfl, rfl, rfl, rfl, rfl,
          Nat.le_succ _⟩
        have h1 : stepOp env st pid =
            finishOp st pid n (.error (downloadFailedMsg n)) := by
          simp [stepOp, hop, hd, hdl]
        rw [runOpToEnd, h1, stepOp_finishOp]
      | true =>
        refine ⟨env.native (getNativeFontName env n) a.localUri,
          midState env st pid n a, ?_, rfl, rfl, rfl, rfl, rfl, by simp [midState]⟩
        have h1 : stepOp env st pid = midState env st pid n a := by
          simp [stepOp, hop, hd, hdl, midState]
        have h2 : (midState env st pid n a).ops.lookup pid =
            some ⟨n, a, Phase.registering⟩ :=
          lookup_map_update st.ops pid _ _ hop
        have h3 : stepOp env (midState env st pid n a) pid =
            finishOp (midState env st pid n a) pid n
              (env.native (getNativeFontName env n) a.localUri) := by
          unfold stepOp
          rw [h2]
        rw [runOpToEnd, h1, h3]

/-! ### Claims -/

/-- C4: after a successful load of `"Foo"` with session identifier `"abc"`,
`isLoaded "Foo"` is true, `isLoading "Foo"` is false, and the resolver
returns `"ExpoFont-abc-Foo"` — the fallback prefix `"ExpoFont-"` followed
by the session-namespaced name. -/
theorem c4_success_resolves_to_namespaced_name :
    isLoaded c4state2 "Foo" = true ∧ isLoading c4state2 "Foo" = false ∧
    processFontFamily envAbc c4state2 (some "Foo") = some "ExpoFont-abc-Foo" :=
  ⟨rfl, rfl, rfl⟩

/-- C5: `"toString"` was never loaded (`isLoaded` is false), yet
`loadAsync("toString", source)` completes successfully with the state
completely unchanged — no download, no native registration, no Loaded Set
entry — because the already-loaded short-circuit tests `loaded[name]` for
truthiness and picks up the inherited `Object.prototype.toString`. -/
theorem c5_prototype_name_short_circuit :
    loadAsyncStart envAbc St.init "toString" (some (Source.asset goodAsset)) =
      (St.init, CallerOutcome.done (Except.ok ())) ∧
    isLoaded St.init "toString" = false :=
  ⟨rfl, rfl⟩

/-- C6: for a null/empty input, the literal sentinel `"System"`, a system
font name, a name containing `"FuturaBT"`, or a name containing the
session identifier, the resolver returns the input unchanged in every
registry state — the Loaded Set is never consulted. -/
theorem c6_resolver_bypass_cases (env : Env) (name : Option String)
    (h : name = none ∨ name = some "" ∨
      ∃ n, name = some n ∧ (env.systemFonts.contains n = true ∨ n = "System" ∨
        strIncludes n "FuturaBT" = true ∨ strIncludes n env.sessionId = true)) :
    ∀ st : St, processFontFamily env st name = name := by
  intro st
  rcases h with rfl | rfl | ⟨n, rfl, hc⟩
  · rfl
  · rfl
  · rcases hc with hc | rfl | hc | hc
    · have hcond : (n == "" || env.systemFonts.contains n || n == "System") = true := by
        rw [hc]
        simp
      simp only [processFontFamily, hcond]
      simp
    · simp [processFontFamily]
    · cases hcond : (n == "" || env.systemFonts.contains n || n == "System") with
      | true =>
        simp only [processFontFamily, hcond]
        simp
      | false =>
        simp only [processFontFamily, hcond, hc]
        simp
    · cases hcond : (n == "" || env.systemFonts.contains n || n == "System") with
      | true =>
        simp only [processFontFamily, hcond]
        simp
      | false =>
        cases hcond2 : strIncludes n "FuturaBT" with
        | true =>
          simp only [processFontFamily, hcond, hcond2]
          simp
        | false =>
          simp only [processFontFamily, hcond, hcond2, hc]
          simp

/-- Witness for C6 at the literal sentinel `"System"`. -/
theorem c6_resolver_bypass_cases_witness :
    processFontFamily envAbc St.init (some "System") = some "System" :=
  c6_resolver_bypass_cases envAbc (some "System")
    (Or.inr (Or.inr ⟨"System", rfl, Or.inr (Or.inl rfl)⟩)) St.init

/-- C7: a non-empty name that bypasses none of the exceptions and is not in
the Loaded Set resolves to the fallback sentinel `"System"`, in every
state (loading or never requested); the resolver is a total pure function
of the state, so it never throws and never mutates the registry maps. -/
theorem c7_unloaded_name_falls_back_to_system (env : Env) (st : St) (n : String)
    (h0 : (n == "") = false)
    (h1 : env.systemFonts.contains n = false)
    (h2 : (n == "System") = false)
    (h3 : strIncludes n "FuturaBT" = false)
    (h4 : strIncludes n env.sessionId = false)
    (h5 : isLoaded st n = false) :
    processFontFamily env st (some n) = some "System" := by
  have hcond : (n == "" || env.systemFonts.contains n || n == "System") = false := by
    rw [h0, h1, h2]
    rfl
  simp only [processFontFamily, hcond, h3, h4, h5]
  simp

/-- Witness for C7 at the never-requested name `"Foo"`. -/
theorem c7_unloaded_name_falls_back_to_system_witness :
    processFontFamily envAbc St.init (some "Foo") = some "System" :=
  c7_unloaded_name_falls_back_to_system envAbc St.init "Foo" rfl rfl rfl rfl rfl rfl

/-- C8 counterexample: in the initial state `"toString"` is neither in the
Loaded Set nor in flight, yet `loadAsync("toString")` with no source does
not fail at all — it completes successfully with the state unchanged,
because the `loaded[name]` truthy check hits the inherited
`Object.prototype.toString` before the `invariant` on the source runs. -/
theorem c8_counterexample_proto_name_no_failure :
    isLoaded St.init "toString" = false ∧
    isLoading St.init "toString" = false ∧
    loadAsyncStart envAbc St.init "toString" none =
      (St.init, CallerOutcome.done (Except.ok ())) :=
  ⟨rfl, rfl, rfl⟩

/-- C8 (amended): for every name whose bare read `loaded[name]` is falsy
(not an own entry and not an inherited `Object.prototype` property) and
that is not in flight, `loadAsync` with no source fails synchronously with
the misuse error and `loadAsync` with a string source fails synchronously
with an explanatory error; in both cases the returned state is exactly the
input state, so neither the Loaded Set nor the In-Flight Map changes. -/
theorem c8_fail_fast_no_state (env : Env) (st : St) (name : String)
    (h1 : jsTruthy st.loaded name = false)
    (h2 : st.promises.lookup name = none) :
    loadAsyncStart env st name none =
      (st, CallerOutcome.done (Except.error (noSourceMsg name))) ∧
    ∀ u, (loadAsyncStart env st name (some (Source.uri u))).1 = st ∧
      ∃ e, (loadAsyncStart env st name (some (Source.uri u))).2 =
        CallerOutcome.done (Except.error e) := by
  refine ⟨?_, ?_⟩
  · simp [loadAsyncStart, h1, h2, sourceFalsy]
  · intro u
    by_cases hu : (u == "") = true
    · refine ⟨?_, noSourceMsg name, ?_⟩ <;>
        simp [loadAsyncStart, h1, h2, sourceFalsy, hu]
    · refine ⟨?_, remoteSourceMsg, ?_⟩ <;>
        simp [loadAsyncStart, h1, h2, sourceFalsy, hu, getAssetForSource]

/-- Witness for the amended C8 at the fresh name `"Foo"`. -/
theorem c8_fail_fast_no_state_witness :
    loadAsyncStart envAbc St.init "Foo" none =
      (St.init, CallerOutcome.done (Except.error (noSourceMsg "Foo"))) :=
  (c8_fail_fast_no_state envAbc St.init "Foo" rfl rfl).1

/-- C9: for a body whose `downloadAsync` completed (no rejection), if the
asset still reports `downloaded = false` the load settles with the error
naming that font, no native-registration call is made and the Loaded Set
is unchanged; if `downloaded = true` the native primitive is called with
the session-namespaced name and the asset's local file path. -/
theorem c9_download_gate (env : Env) (st : St) (pid : Nat) (op : Op)
    (hop : st.ops.lookup pid = some op)
    (hph : op.phase = Phase.downloading)
    (hdl : op.asset.downloadRejects = none) :
    (op.asset.downloaded = false →
       (stepOp env st pid).results.lookup pid =
         some (Except.error (downloadFailedMsg op.name)) ∧
       (stepOp env st pid).nativeCalls = st.nativeCalls ∧
       (stepOp env st pid).loaded = st.loaded) ∧
    (op.asset.downloaded = true →
       (stepOp env st pid).nativeCalls =
         (getNativeFontName env op.name, op.asset.localUri) :: st.nativeCalls ∧
       (stepOp env st pid).loaded = st.loaded) := by
  obtain ⟨n, a, ph⟩ := op
  cases hph
  have hdl' : a.downloadRejects = none := hdl
  refine ⟨fun hd => ?_, fun hd => ?_⟩
  · have hd' : a.downloaded = false := hd
    simp [stepOp, hop, hdl', hd', finishOp]
  · have hd' : a.downloaded = true := hd
    simp [stepOp, hop, hdl', hd', finishOp]

/-- Witness for C9: the failing download of `"Bar"` in `st9`. -/
theorem c9_download_gate_witness :
    (stepOp envAbc st9 0).results.lookup 0 =
      some (Except.error (downloadFailedMsg "Bar")) ∧
    (stepOp envAbc st9 0).nativeCalls = st9.nativeCalls ∧
    (stepOp envAbc st9 0).loaded = st9.loaded :=
  (c9_download_gate envAbc st9 0 ⟨"Bar", badAsset, Phase.downloading⟩ rfl rfl rfl).1 rfl

/-- C2: when an in-flight load for a name settles — success, download
failure, or native-registration rejection — the `finally` cleanup removes
the In-Flight Map entry, so `isLoading` is false afterwards and the shared
promise has a recorded result; whenever the settlement was a failure the
name is still not in the Loaded Set and a subsequent `loadAsync` with a
valid source is not blocked by any stale entry: it starts a fresh shared
operation with a fresh download.  (After a successful settlement the next
call short-circuits on the Loaded Set instead.) -/
theorem c2_settlement_cleanup (env : Env) (st : St) (pid : Nat) (op : Op)
    (hop : st.ops.lookup pid = some op) :
    isLoading (runOpToEnd env st pid) op.name = false ∧
    (∃ r, (runOpToEnd env st pid).results.lookup pid = some r) ∧
    ∀ e src a,
      (runOpToEnd env st pid).results.lookup pid = some (Except.error e) →
      objectProtoTruthy op.name = false →
      st.loaded.contains op.name = false →
      sourceFalsy (some src) = false →
      getAssetForSource env src = Except.ok a →
      (runOpToEnd env st pid).loaded.contains op.name = false ∧
      (loadAsyncStart env (runOpToEnd env st pid) op.name (some src)).2 =
        CallerOutcome.awaiting (runOpToEnd env st pid).nextId ∧
      (loadAsyncStart env (runOpToEnd env st pid) op.name (some src)).1.downloadCalls =
        op.name :: (runOpToEnd env st pid).downloadCalls := by
  obtain ⟨r, st1, heq, hL, hP, hR, hN, hD, hNC⟩ := runOpToEnd_settles env st pid op hop
  rw [heq]
  refine ⟨?_, ⟨r, ?_⟩, ?_⟩
  · simp [isLoading, finishOp, lookup_filter_ne_key]
  · simp [finishOp]
  · intro e src a hres hproto hcontains hsf hga
    have hr : r = Except.error e := by
      have h0 : ((pid, r) :: st1.results).lookup pid = some (Except.error e) := by
        simpa [finishOp] using hres
      simpa using h0
    subst hr
    have hload : (finishOp st1 pid op.name (Except.error e)).loaded = st.loaded := by
      simp [finishOp, hL]
    have hmem : op.name ∉ st.loaded := by
      simpa using hcontains
    have htr : jsTruthy (finishOp st1 pid op.name (Except.error e)).loaded op.name = false := by
      rw [hload]
      simp [jsTruthy, hmem, hproto]
    have hlk : (finishOp st1 pid op.name (Except.error e)).promises.lookup op.name = none := by
      simp [finishOp, lookup_filter_ne_key]
    refine ⟨by rw [hload]; exact hcontains, ?_, ?_⟩ <;>
      simp [loadAsyncStart, htr, hlk, hsf, hga]

/-- Witness for C2: the failing download of `"Bar"` in `st9`, followed by a
fresh retry with a valid asset source. -/
theorem c2_settlement_cleanup_witness :
    isLoading (runOpToEnd envAbc st9 0) "Bar" = false ∧
    (loadAsyncStart envAbc (runOpToEnd envAbc st9 0) "Bar"
        (some (Source.asset goodAsset))).2 =
      CallerOutcome.awaiting (runOpToEnd envAbc st9 0).nextId :=
  ⟨(c2_settlement_cleanup envAbc st9 0 ⟨"Bar", badAsset, Phase.downloading⟩ rfl).1,
   ((c2_settlement_cleanup envAbc st9 0 ⟨"Bar", badAsset, Phase.downloading⟩ rfl).2.2
      (downloadFailedMsg "Bar") (Source.asset goodAsset) goodAsset rfl rfl rfl rfl rfl).2.1⟩

/-- C1: from a state where `name` is neither loaded nor in flight, a first
`loadAsync(name, src)` creates the shared operation (promise id
`st.nextId`) and issues exactly one download; while it is in flight, any
further call for the same name — with any source — returns that same
shared operation and changes nothing; running the shared operation to its
settlement issues no further download, at most one native-registration
call, and records a single shared result that every caller awaiting the
promise observes identically. -/
theorem c1_concurrent_dedup (env : Env) (st : St) (name : String) (src : Source)
    (a : AssetBeh)
    (hl : jsTruthy st.loaded name = false)
    (hp : st.promises.lookup name = none)
    (hsf : sourceFalsy (some src) = false)
    (hsrc : getAssetForSource env src = Except.ok a) :
    (loadAsyncStart env st name (some src)).2 = CallerOutcome.awaiting st.nextId ∧
    (loadAsyncStart env st name (some src)).1.downloadCalls = name :: st.downloadCalls ∧
    (∀ src2, loadAsyncStart env (loadAsyncStart env st name (some src)).1 name src2 =
       ((loadAsyncStart env st name (some src)).1, CallerOutcome.awaiting st.nextId)) ∧
    (runOpToEnd env (loadAsyncStart env st name (some src)).1 st.nextId).downloadCalls =
      name :: st.downloadCalls ∧
    (runOpToEnd env (loadAsyncStart env st name (some src)).1 st.nextId).nativeCalls.length ≤
      st.nativeCalls.length + 1 ∧
    ∃ r, (runOpToEnd env (loadAsyncStart env st name (some src)).1 st.nextId).results.lookup
      st.nextId = some r := by
  have hstart : loadAsyncStart env st name (some src) =
      ({ st with
          promises := (name, st.nextId) :: st.promises,
          ops := (st.nextId, ⟨name, a, Phase.downloading⟩) :: st.ops,
          nextId := st.nextId + 1,
          downloadCalls := name :: st.downloadCalls }, CallerOutcome.awaiting st.nextId) := by
    simp [loadAsyncStart, hl, hp, hsf, hsrc]
  obtain ⟨r, st1, heq, hL, hP, hR, hN, hD, hNC⟩ :=
    runOpToEnd_settles env (loadAsyncStart env st name (some src)).1 st.nextId
      ⟨name, a, Phase.downloading⟩ (by rw [hstart]; simp)
  refine ⟨by rw [hstart], by rw [hstart], ?_, ?_, ?_, ?_⟩
  · intro src2
    rw [hstart]
    simp [loadAsyncStart, hl]
  · rw [heq]
    show st1.downloadCalls = name :: st.downloadCalls
    rw [hD, hstart]
  · rw [heq]
    have h2 : ((loadAsyncStart env st name (some src)).1).nativeCalls = st.nativeCalls := by
      rw [hstart]
    calc (finishOp st1 st.nextId name r).nativeCalls.length
        = st1.nativeCalls.length := rfl
      _ ≤ ((loadAsyncStart env st name (some src)).1).nativeCalls.length + 1 := hNC
      _ = st.nativeCalls.length + 1 := by rw [h2]
  · rw [heq]
    exact ⟨r, by simp [finishOp]⟩

/-- Witness for C1: two callers for the fresh name `"Foo"`, the second with
no source at all, share the operation with promise id `0`. -/
theorem c1_concurrent_dedup_witness :
    (loadAsyncStart envAbc St.init "Foo" (some (Source.asset goodAsset))).2 =
      CallerOutcome.awaiting 0 ∧
    loadAsyncStart envAbc
        (loadAsyncStart envAbc St.init "Foo" (some (Source.asset goodAsset))).1 "Foo" none =
      ((loadAsyncStart envAbc St.init "Foo" (some (Source.asset goodAsset))).1,
        CallerOutcome.awaiting 0) :=
  ⟨(c1_concurrent_dedup envAbc St.init "Foo" (Source.asset goodAsset) goodAsset
      rfl rfl rfl rfl).1,
   (c1_concurrent_dedup envAbc St.init "Foo" (Source.asset goodAsset) goodAsset
      rfl rfl rfl rfl).2.2.1 none⟩

/-- The synchronous prefix of `loadAsync` never touches the Loaded Set. -/
theorem loadAsyncStart_loaded (env : Env) (st : St) (name : String)
    (src : Option Source) :
    ((loadAsyncStart env st name src).1).loaded = st.loaded := by
  unfold loadAsyncStart
  repeat' first
    | rfl
    | split

/-- A scheduler step never removes a name from the Loaded Set. -/
theorem stepOp_loaded_mono (env : Env) (st : St) (pid : Nat) (name : String)
    (h : st.loaded.contains name = true) :
    (stepOp env st pid).loaded.contains name = true := by
  have hm : name ∈ st.loaded := by
    simpa using h
  unfold stepOp finishOp
  repeat' first
    | exact h
    | split
  all_goals simp [hm]

/-- Loaded Set membership survives every interleaving of events. -/
theorem runEvents_loaded_mono (env : Env) (name : String) (evts : List RegEvent) :
    ∀ st : St, st.loaded.contains name = true →
      (runEvents env st evts).loaded.contains name = true := by
  induction evts with
  | nil => exact fun st h => h
  | cons a rest ih =>
    intro st h
    have hstep : (applyEvent env st a).loaded.contains name = true := by
      cases a with
      | call n src =>
        show ((loadAsyncStart env st n src).1).loaded.contains name = true
        rw [loadAsyncStart_loaded]
        exact h
      | step pid => exact stepOp_loaded_mono env st pid name h
    exact ih (applyEvent env st a) hstep

/-- A name absent before a step and present after it was added by the
settlement of its own registering body with a successful native call. -/
theorem stepOp_new_loaded (env : Env) (st : St) (pid : Nat) (name : String)
    (h1 : (stepOp env st pid).loaded.contains name = true)
    (h2 : st.loaded.contains name = false) :
    ∃ op, st.ops.lookup pid = some op ∧ op.name = name ∧
      op.phase = Phase.registering ∧
      env.native (getNativeFontName env name) op.asset.localUri = Except.ok () := by
  have hm : name ∉ st.loaded := by
    simpa using h2
  rcases hop : st.ops.lookup pid with _ | op
  · have heq : stepOp env st pid = st := by
      simp [stepOp, hop]
    rw [heq] at h1
    simp [hm] at h1
  · cases hphase : op.phase with
    | downloading =>
      cases hd : op.asset.downloadRejects with
      | some e =>
        have heq : stepOp env st pid = finishOp st pid op.name (Except.error e) := by
          simp [stepOp, hop, hphase, hd]
        rw [heq] at h1
        simp [finishOp, hm] at h1
      | none =>
        cases hdd : op.asset.downloaded with
        | false =>
          have heq : stepOp env st pid =
              finishOp st pid op.name (Except.error (downloadFailedMsg op.name)) := by
            simp [stepOp, hop, hphase, hd, hdd]
          rw [heq] at h1
          simp [finishOp, hm] at h1
        | true =>
          have heq : stepOp env st pid = midState env st pid op.name op.asset := by
            simp [stepOp, hop, hphase, hd, hdd, midState]
          rw [heq] at h1
          simp [midState, hm] at h1
    | registering =>
      have heq : stepOp env st pid =
          finishOp st pid op.name
            (env.native (getNativeFontName env op.name) op.asset.localUri) := by
        simp [stepOp, hop, hphase]
      rw [heq] at h1
      cases hr : env.native (getNativeFontName env op.name) op.asset.localUri with
      | error e =>
        simp [finishOp, hr, hm] at h1
      | ok u =>
        simp [finishOp, hr, hm] at h1
        subst h1
        exact ⟨op, rfl, rfl, hphase, by rw [hr]⟩

/-- C3: Loaded Set membership is monotone — the synchronous prefix of
`loadAsync` never changes the Loaded Set, a scheduler step never removes a
name (there is no unload), a name that appears after a step was added by
the settlement of its own body after a successful native-registration
call, and once `isLoaded` is true it stays true across every further
sequence of interleaved events. -/
theorem c3_loaded_monotone :
    (∀ env st name src, ((loadAsyncStart env st name src).1).loaded = st.loaded) ∧
    (∀ env st pid name, isLoaded st name = true →
       isLoaded (stepOp env st pid) name = true) ∧
    (∀ env st pid name, isLoaded (stepOp env st pid) name = true →
       isLoaded st name = false →
       ∃ op, st.ops.lookup pid = some op ∧ op.name = name ∧
         op.phase = Phase.registering ∧
         env.native (getNativeFontName env name) op.asset.localUri = Except.ok ()) ∧
    (∀ env name evts st, isLoaded st name = true →
       isLoaded (runEvents env st evts) name = true) :=
  ⟨loadAsyncStart_loaded,
   fun env st pid name h => stepOp_loaded_mono env st pid name h,
   fun env st pid name h1 h2 => stepOp_new_loaded env st pid name h1 h2,
   fun env name evts st h => runEvents_loaded_mono env name evts st h⟩

/-- Witness for C3: `"Foo"`, loaded in the C4 scenario, stays loaded after
another caller's failing no-source call and a stray scheduler step. -/
theorem c3_loaded_monotone_witness :
    isLoaded (runEvents envAbc c4state2 [RegEvent.call "Bar" none, RegEvent.step 7])
      "Foo" = true :=
  c3_loaded_monotone.2.2.2 envAbc "Foo" [RegEvent.call "Bar" none, RegEvent.step 7]
    c4state2 rfl

/-- C10: fanning out the mapping `\x7b A: goodAsset, B: badAsset \x7d` first runs
both synchronous prefixes — both names are in flight before anything
settles, and the overall `Promise.all` result is unavailable until every
member settles — then, with `B`'s download failing, the overall operation
rejects with `B`'s error while `A`, whose load ran to completion
unaffected, still ends up in the Loaded Set. -/
theorem c10_fanout_sibling_failure :
    isLoading c10start.1 "A" = true ∧
    isLoading c10start.1 "B" = true ∧
    gatherResults c10afterA c10start.2 = none ∧
    gatherResults c10final c10start.2 =
      some [Except.ok (), Except.error (downloadFailedMsg "B")] ∧
    firstErr [Except.ok (), Except.error (downloadFailedMsg "B")] =
      Except.error (downloadFailedMsg "B") ∧
    isLoaded c10final "A" = true ∧
    isLoaded c10final "B" = false :=
  ⟨rfl, rfl, rfl, rfl, rfl, rfl, rfl⟩
